import Mathlib

/-!
Shallow embedding of the agario-python-ai backend (`src/app.py`).

Modelling conventions:
* Python floats are modelled as real numbers (`ℝ`).
* Randomness (`random.uniform`, `random.random`, `uuid`) and wall-clock time
  (`time.time()`) are modelled as oracle values supplied through explicit
  environment records (`BotEnv` for construction, `UpdateEnv` for a tick).
* The global dict `bots_data` is modelled as an insertion-ordered association
  list from bot identifier to bot (`Registry`); a Python dict corresponds to
  such a list whose keys are pairwise distinct.
* In-place mutation becomes explicit state passing: each operation returns the
  updated value.
-/

open scoped Classical

noncomputable section

/-- Source: `WORLD_WIDTH = 3000` (app.py line 11). -/
def WORLD_WIDTH : ℝ := 3000

/-- Source: `WORLD_HEIGHT = 3000` (app.py line 12). -/
def WORLD_HEIGHT : ℝ := 3000

/-- Source: `BOT_MAX_CELLS = 4` (app.py line 13); defined but unused by the logic. -/
def BOT_MAX_CELLS : ℕ := 4

/-- Source: `BOT_INITIAL_MASS = math.pi * 15 * 15` (app.py line 14). -/
def BOT_INITIAL_MASS : ℝ := Real.pi * 15 * 15

/-- Source: `BOT_BASE_SPEED = 2.5` (app.py line 15). -/
def BOT_BASE_SPEED : ℝ := 2.5

/-- Source: `mass_to_radius(mass) = (mass / math.pi) ** 0.5` (app.py lines 22-23). -/
def mass_to_radius (mass : ℝ) : ℝ := Real.sqrt (mass / Real.pi)

/-- Source: `radius_to_mass(radius) = math.pi * radius * radius` (app.py lines 25-26). -/
def radius_to_mass (radius : ℝ) : ℝ := Real.pi * radius * radius

/-- A `PyBotCell` instance (app.py lines 28-41): id, position, mass and the
derived radius field. -/
structure PyBotCell where
  id : String
  x : ℝ
  y : ℝ
  mass : ℝ
  radius : ℝ

/-- Source: `PyBotCell.__init__` (app.py lines 29-34): stores position and mass and
sets `radius = mass_to_radius(mass)`; the generated `cell_id` is an oracle. -/
def PyBotCell.make (x y mass : ℝ) (cell_id : String) : PyBotCell :=
  { id := cell_id, x := x, y := y, mass := mass, radius := mass_to_radius mass }

/-- Source: `PyBotCell.update_mass` (app.py lines 36-38): overwrites the mass and
recomputes `radius = mass_to_radius(mass)`. -/
def PyBotCell.update_mass (c : PyBotCell) (new_mass : ℝ) : PyBotCell :=
  { c with mass := new_mass, radius := mass_to_radius new_mass }

/-- A `PyBot` instance (app.py lines 44-113). -/
structure PyBot where
  id : String
  name : String
  color : String
  cells : List PyBotCell
  target_x : ℝ
  target_y : ℝ
  last_update_time : ℝ
  total_mass : ℝ

/-- Oracle record for one `PyBot()` construction: the generated id, name and
color, the generated cell id, the `random.uniform(100, WORLD_WIDTH-100)` /
`random.uniform(100, WORLD_HEIGHT-100)` initial-position draws, the
`random.uniform(0, WORLD_WIDTH)` / `random.uniform(0, WORLD_HEIGHT)` target
draws, and the `time.time()` value. -/
structure BotEnv where
  bot_id : String
  bot_name : String
  bot_color : String
  cell_id : String
  initial_x : ℝ
  initial_y : ℝ
  target_x : ℝ
  target_y : ℝ
  now : ℝ

/-- Source: `PyBot.recalculate_total_mass` (app.py lines 62-66), bot-local part:
`self.total_mass = sum(cell.mass for cell in self.cells)`. The method's other
effect (deleting the bot from the global `bots_data` when it has no cells) is a
registry-level side effect; within the program this method is invoked only from
`add_initial_cell`, immediately after a cell was appended, so that branch never
fires there; registry deletions are modelled in the registry operations below. -/
def recalculate_total_mass (b : PyBot) : PyBot :=
  { b with total_mass := (b.cells.map PyBotCell.mass).sum }

/-- Source: `PyBot.add_initial_cell` (app.py lines 56-60): appends one cell of mass
`BOT_INITIAL_MASS` at the oracle-drawn initial position, then recomputes the
total mass. -/
def PyBot.add_initial_cell (b : PyBot) (env : BotEnv) : PyBot :=
  recalculate_total_mass
    { b with cells := b.cells ++ [PyBotCell.make env.initial_x env.initial_y BOT_INITIAL_MASS env.cell_id] }

/-- Source: `PyBot.__init__` via `create_bot_instance()` (app.py lines 45-54, 115-116):
all three optional arguments are `None`, so id, name and color come from the
generators (oracles here); `cells` starts empty, the wander target is the
oracle draw, `last_update_time = time.time()`, `total_mass = 0`, then
`add_initial_cell` runs. -/
def mkPyBot (env : BotEnv) : PyBot :=
  PyBot.add_initial_cell
    { id := env.bot_id
      name := env.bot_name
      color := env.bot_color
      cells := []
      target_x := env.target_x
      target_y := env.target_y
      last_update_time := env.now
      total_mass := 0 } env

/-- Source: `PyBot.get_center_of_mass` (app.py lines 68-74): with no cells, returns the
wander target; otherwise the mass-weighted average of cell positions, falling
back to the first cell's coordinates when the cached `total_mass` is falsy
(zero). -/
def PyBot.get_center_of_mass (b : PyBot) : ℝ × ℝ :=
  match b.cells with
  | [] => (b.target_x, b.target_y)
  | c :: _ =>
    ((if b.total_mass ≠ 0 then (b.cells.map (fun d => d.x * d.mass)).sum / b.total_mass else c.x),
     (if b.total_mass ≠ 0 then (b.cells.map (fun d => d.y * d.mass)).sum / b.total_mass else c.y))

/-- Source: `math.atan2(y, x)`: the argument of the complex number `x + y i`. -/
def atan2 (y x : ℝ) : ℝ := Complex.arg ⟨x, y⟩

/-- The scalar speed of app.py lines 90-91:
`speed = max(0.5, BOT_BASE_SPEED / (1 + total_mass / (BOT_INITIAL_MASS * 20)))`. -/
def bot_speed (total_mass : ℝ) : ℝ :=
  max 0.5 (BOT_BASE_SPEED / (1 + total_mass / (BOT_INITIAL_MASS * 20)))

/-- Source: `move_x = math.cos(angle) * speed * delta_time * 60` (app.py line 93). -/
def move_x (total_mass delta_time angle : ℝ) : ℝ :=
  Real.cos angle * bot_speed total_mass * delta_time * 60

/-- Source: `move_y = math.sin(angle) * speed * delta_time * 60` (app.py line 94). -/
def move_y (total_mass delta_time angle : ℝ) : ℝ :=
  Real.sin angle * bot_speed total_mass * delta_time * 60

/-- The Euclidean norm of the per-tick displacement vector
`(move_x, move_y)`. -/
def displacement_magnitude (total_mass delta_time angle : ℝ) : ℝ :=
  Real.sqrt (move_x total_mass delta_time angle ^ 2 + move_y total_mass delta_time angle ^ 2)

/-- Oracle record for one `update_position` call: the
`random.uniform(0, WORLD_WIDTH)` / `random.uniform(0, WORLD_HEIGHT)` re-roll
target draws, the `random.random()` draw, and the `time.time()` value recorded
at the end of the call. -/
structure UpdateEnv where
  new_target_x : ℝ
  new_target_y : ℝ
  roll : ℝ
  now : ℝ

/-- Source: `PyBot.update_position(delta_time)` (app.py lines 76-102): no-op when the
bot has no cells; otherwise re-rolls the target when the center of mass is
within 50 units of it or the random draw is below 0.01, computes the heading
angle by `atan2`, moves every cell by the same displacement, clamps each cell
to `[radius, WORLD - radius]` on both axes, and stamps `last_update_time`. -/
def PyBot.update_position (b : PyBot) (delta_time : ℝ) (env : UpdateEnv) : PyBot :=
  if b.cells = [] then b
  else
    let com := b.get_center_of_mass
    let dist_to_target := Real.sqrt ((b.target_x - com.1) ^ 2 + (b.target_y - com.2) ^ 2)
    let reroll := dist_to_target < 50 ∨ env.roll < 0.01
    let tx := if reroll then env.new_target_x else b.target_x
    let ty := if reroll then env.new_target_y else b.target_y
    let angle := atan2 (ty - com.2) (tx - com.1)
    let mx := move_x b.total_mass delta_time angle
    let my := move_y b.total_mass delta_time angle
    { b with
      cells := b.cells.map (fun c =>
        { c with
          x := max c.radius (min (WORLD_WIDTH - c.radius) (c.x + mx)),
          y := max c.radius (min (WORLD_HEIGHT - c.radius) (c.y + my)) }),
      target_x := tx
      target_y := ty
      last_update_time := env.now }

/-- The global `bots_data` dict (app.py line 17): an insertion-ordered
association list from bot id to bot; a dict's keys are pairwise distinct. -/
abbrev Registry := List (String × PyBot)

/-- Source: `bots_data[key] = b`: if the key is present, overwrite its value in place;
otherwise append the new binding (dict insertion order). -/
def dict_insert (reg : Registry) (key : String) (b : PyBot) : Registry :=
  if reg.any (fun p => p.1 = key) then
    reg.map (fun p => if p.1 = key then (key, b) else p)
  else reg ++ [(key, b)]

/-- Source: `del bots_data[key]`: drop the binding with that key. -/
def dict_erase (reg : Registry) (key : String) : Registry :=
  reg.filter (fun p => p.1 ≠ key)

/-- One iteration of the `get_bots_data` loop body (app.py lines 126-128):
update the bot with `delta_time = current_time - bot.last_update_time`, using
the oracle draws associated with its id. -/
def advance_bot (current_time : ℝ) (envf : String → UpdateEnv) (p : String × PyBot) :
    String × PyBot :=
  (p.1, p.2.update_position (current_time - p.2.last_update_time) (envf p.1))

/-- Source: `get_bots_data` (app.py lines 122-134): snapshot the registry, update every
bot, keep (and return) exactly the bots that still have cells, delete the
others from the registry. Returns the new registry and the returned bot list. -/
def get_bots_data (reg : Registry) (current_time : ℝ) (envf : String → UpdateEnv) :
    Registry × List PyBot :=
  let updated := reg.map (advance_bot current_time envf)
  let kept := updated.filter (fun p => !p.2.cells.isEmpty)
  (kept, kept.map Prod.snd)

/-- Source: `reset_all_bots` (app.py lines 136-145): clear `bots_data`, then insert
`count` fresh bots (Python's `range(count)` is empty for a non-positive count,
hence `count.toNat`); return the new registry together with the response list
`[b for b in bots_data.values() if b.cells]`. -/
def reset_all_bots (_reg : Registry) (count : ℤ) (envs : ℕ → BotEnv) :
    Registry × List PyBot :=
  let newReg := (List.range count.toNat).foldl
    (fun acc i => dict_insert acc (mkPyBot (envs i)).id (mkPyBot (envs i))) []
  (newReg, (newReg.filter (fun p => !p.2.cells.isEmpty)).map Prod.snd)

/-- Source: `bot_was_eaten` (app.py lines 147-156): if the id is registered, delete it,
construct and register one replacement bot and report found (`true`, HTTP 200);
otherwise leave the registry unchanged and report not-found (`false`,
HTTP 404). -/
def bot_was_eaten (reg : Registry) (bot_id : String) (env : BotEnv) :
    Registry × Bool :=
  if reg.any (fun p => p.1 = bot_id) then
    (dict_insert (dict_erase reg bot_id) (mkPyBot env).id (mkPyBot env), true)
  else (reg, false)

/-- Concrete cell fixture used by witnesses. -/
def wCell : PyBotCell :=
  { id := "c1", x := 100, y := 200, mass := 3, radius := 1 }

/-- Concrete bot fixture used by witnesses. -/
def wBot : PyBot :=
  { id := "a", name := "Bot a", color := "#ffffff", cells := [wCell],
    target_x := 500, target_y := 600, last_update_time := 0, total_mass := 3 }

/-- Concrete per-tick oracle fixture used by witnesses. -/
def wUEnv : UpdateEnv :=
  { new_target_x := 1500, new_target_y := 1500, roll := 1, now := 10 }

/-- Concrete per-id oracle family used by witnesses. -/
def wEnvf : String → UpdateEnv := fun _ => wUEnv

/-- Concrete construction oracle fixture used by witnesses. -/
def wBotEnv : BotEnv :=
  { bot_id := "b", bot_name := "Bot b", bot_color := "#000000", cell_id := "c2",
    initial_x := 200, initial_y := 300, target_x := 400, target_y := 500, now := 0 }

/-- The initial cell's radius: `mass_to_radius(BOT_INITIAL_MASS) = 15`. -/
lemma mass_to_radius_initial : mass_to_radius BOT_INITIAL_MASS = 15 := by
  rw [mass_to_radius, BOT_INITIAL_MASS]
  rw [show Real.pi * 15 * 15 / Real.pi = (225 : ℝ) by
    field_simp
    ring]
  rw [show (225 : ℝ) = 15 ^ 2 by norm_num]
  exact Real.sqrt_sq (by norm_num)

/-- C6: For every cell, radius = sqrt(mass / pi) holds at construction and
after every sequence of mass mutations through update_mass; radius is only
ever written together with mass. -/
theorem c6_radius_consistency (x y m : ℝ) (cid : String) (ms : List ℝ) :
    (ms.foldl PyBotCell.update_mass (PyBotCell.make x y m cid)).radius
      = Real.sqrt ((ms.foldl PyBotCell.update_mass (PyBotCell.make x y m cid)).mass / Real.pi) := by
  have key : ∀ (l : List ℝ) (c : PyBotCell), c.radius = mass_to_radius c.mass →
      (l.foldl PyBotCell.update_mass c).radius
        = mass_to_radius (l.foldl PyBotCell.update_mass c).mass := by
    intro l
    induction l with
    | nil => intro c h; exact h
    | cons a t ih => intro c _; exact ih _ rfl
  simpa [mass_to_radius] using key ms (PyBotCell.make x y m cid) rfl

/-- C7: total_mass equals the sum of the cells' masses after construction,
after recalculate_total_mass, and (given it held before) after
update_position. -/
theorem c7_total_mass_invariant (env : BotEnv) (b : PyBot) (dt : ℝ) (uenv : UpdateEnv) :
    (mkPyBot env).total_mass = ((mkPyBot env).cells.map PyBotCell.mass).sum
    ∧ (recalculate_total_mass b).total_mass
        = ((recalculate_total_mass b).cells.map PyBotCell.mass).sum
    ∧ (b.total_mass = (b.cells.map PyBotCell.mass).sum →
        (b.update_position dt uenv).total_mass
          = ((b.update_position dt uenv).cells.map PyBotCell.mass).sum) := by
  refine ⟨rfl, rfl, ?_⟩
  intro h
  by_cases hc : b.cells = []
  · simp [PyBot.update_position, hc, h]
  · simp only [PyBot.update_position, if_neg hc, List.map_map]
    rw [h]
    rfl

/-- Witness for C7 at a concrete bot. -/
theorem c7_total_mass_invariant_witness :
    (wBot.update_position 1 wUEnv).total_mass
      = ((wBot.update_position 1 wUEnv).cells.map PyBotCell.mass).sum :=
  (c7_total_mass_invariant wBotEnv wBot 1 wUEnv).2.2 (by simp [wBot, wCell])

/-- C8: get_center_of_mass is total: no cells gives the wander target, cells
with cached total mass zero give the first cell's position, and otherwise the
mass-weighted average of the cell positions. -/
theorem c8_center_of_mass_total (b : PyBot) :
    (b.cells = [] → b.get_center_of_mass = (b.target_x, b.target_y))
    ∧ (∀ c cs, b.cells = c :: cs → b.total_mass = 0 →
        b.get_center_of_mass = (c.x, c.y))
    ∧ (∀ c cs, b.cells = c :: cs → b.total_mass ≠ 0 →
        b.get_center_of_mass
          = ((b.cells.map (fun d => d.x * d.mass)).sum / b.total_mass,
             (b.cells.map (fun d => d.y * d.mass)).sum / b.total_mass)) := by
  refine ⟨?_, ?_, ?_⟩
  · intro h; simp [PyBot.get_center_of_mass, h]
  · intro c cs h hm; simp [PyBot.get_center_of_mass, h, hm]
  · intro c cs h hm; simp [PyBot.get_center_of_mass, h, hm]

/-- Witness for C8 at a concrete one-cell bot with nonzero total mass. -/
theorem c8_center_of_mass_total_witness :
    wBot.get_center_of_mass
      = ((wBot.cells.map (fun d => d.x * d.mass)).sum / wBot.total_mass,
         (wBot.cells.map (fun d => d.y * d.mass)).sum / wBot.total_mass) :=
  (c8_center_of_mass_total wBot).2.2 wCell [] rfl (by norm_num [wBot])

/-- C4: after update_position, every cell is clamped to
[radius, WORLD - radius] on both axes, provided every cell's diameter fits the
arena; and every cell a constructed bot ever has satisfies that proviso (its
radius is 15). -/
theorem c4_bounds_clamp (b : PyBot) (dt : ℝ) (env : UpdateEnv)
    (h : ∀ c ∈ b.cells, 2 * c.radius ≤ WORLD_WIDTH ∧ 2 * c.radius ≤ WORLD_HEIGHT) :
    (∀ c ∈ (b.update_position dt env).cells,
      c.radius ≤ c.x ∧ c.x ≤ WORLD_WIDTH - c.radius
      ∧ c.radius ≤ c.y ∧ c.y ≤ WORLD_HEIGHT - c.radius)
    ∧ ∀ (benv : BotEnv), ∀ c ∈ (mkPyBot benv).cells,
        2 * c.radius ≤ WORLD_WIDTH ∧ 2 * c.radius ≤ WORLD_HEIGHT := by
  constructor
  · by_cases hc : b.cells = []
    · simp [PyBot.update_position, hc]
    · simp only [PyBot.update_position, if_neg hc]
      intro c hcmem
      simp only [List.mem_map] at hcmem
      obtain ⟨c0, hc0, rfl⟩ := hcmem
      obtain ⟨hw, hh⟩ := h c0 hc0
      refine ⟨le_max_left _ _, max_le (by linarith) (min_le_left _ _),
        le_max_left _ _, max_le (by linarith) (min_le_left _ _)⟩
  · intro benv c hcmem
    have : c = PyBotCell.make benv.initial_x benv.initial_y BOT_INITIAL_MASS benv.cell_id := by
      simpa [mkPyBot, PyBot.add_initial_cell, recalculate_total_mass] using hcmem
    subst this
    have hr : (PyBotCell.make benv.initial_x benv.initial_y BOT_INITIAL_MASS benv.cell_id).radius = 15 :=
      mass_to_radius_initial
    rw [hr, WORLD_WIDTH, WORLD_HEIGHT]
    norm_num

/-- The scalar speed is at least 0.5. -/
lemma bot_speed_ge (m : ℝ) : 0.5 ≤ bot_speed m := le_max_left _ _

/-- For nonnegative delta_time the displacement magnitude is exactly
speed * delta_time * 60. -/
lemma displacement_magnitude_eq (m dt θ : ℝ) (hdt : 0 ≤ dt) :
    displacement_magnitude m dt θ = bot_speed m * dt * 60 := by
  have hs : 0 ≤ bot_speed m * dt * 60 := by
    have h05 : (0 : ℝ) ≤ bot_speed m := le_trans (by norm_num) (bot_speed_ge m)
    have := mul_nonneg (mul_nonneg h05 hdt) (by norm_num : (0:ℝ) ≤ 60)
    linarith
  rw [displacement_magnitude, move_x, move_y,
    show (Real.cos θ * bot_speed m * dt * 60) ^ 2 + (Real.sin θ * bot_speed m * dt * 60) ^ 2
        = (bot_speed m * dt * 60) ^ 2 * (Real.cos θ ^ 2 + Real.sin θ ^ 2) by ring,
    Real.cos_sq_add_sin_sq, mul_one, Real.sqrt_sq hs]

/-- The scalar speed is antitone in total mass on the nonnegative masses. -/
lemma bot_speed_antitone (m1 m2 : ℝ) (h1 : 0 ≤ m1) (h12 : m1 ≤ m2) :
    bot_speed m2 ≤ bot_speed m1 := by
  have hK : (0 : ℝ) < BOT_INITIAL_MASS * 20 := by
    rw [BOT_INITIAL_MASS]
    positivity
  have hd1 : (0 : ℝ) < 1 + m1 / (BOT_INITIAL_MASS * 20) := by
    have := div_nonneg h1 hK.le
    linarith
  have hd12 : 1 + m1 / (BOT_INITIAL_MASS * 20) ≤ 1 + m2 / (BOT_INITIAL_MASS * 20) := by
    have : m1 / (BOT_INITIAL_MASS * 20) ≤ m2 / (BOT_INITIAL_MASS * 20) := by gcongr
    linarith
  have hbase : (0 : ℝ) ≤ BOT_BASE_SPEED := by rw [BOT_BASE_SPEED]; norm_num
  exact max_le_max le_rfl (div_le_div_of_nonneg_left hbase hd1 hd12)

/-- C5: the scalar speed is max(0.5, 2.5 / (1 + total_mass / (initial_mass * 20)));
for fixed nonnegative delta_time the displacement magnitude equals
speed * delta_time * 60, is non-increasing in total mass, and is floored at
0.5 * delta_time * 60. -/
theorem c5_speed_monotonicity (m m1 m2 dt θ : ℝ)
    (h1 : 0 ≤ m1) (h12 : m1 ≤ m2) (hdt : 0 ≤ dt) :
    bot_speed m = max 0.5 (2.5 / (1 + m / (Real.pi * 15 * 15 * 20)))
    ∧ displacement_magnitude m dt θ = bot_speed m * dt * 60
    ∧ displacement_magnitude m2 dt θ ≤ displacement_magnitude m1 dt θ
    ∧ 0.5 * dt * 60 ≤ displacement_magnitude m dt θ := by
  refine ⟨by rw [bot_speed, BOT_BASE_SPEED, BOT_INITIAL_MASS],
    displacement_magnitude_eq m dt θ hdt, ?_, ?_⟩
  · rw [displacement_magnitude_eq m1 dt θ hdt, displacement_magnitude_eq m2 dt θ hdt]
    have := bot_speed_antitone m1 m2 h1 h12
    have h60 : (0 : ℝ) ≤ 60 := by norm_num
    exact mul_le_mul_of_nonneg_right (mul_le_mul_of_nonneg_right this hdt) h60
  · rw [displacement_magnitude_eq m dt θ hdt]
    have := bot_speed_ge m
    have h60 : (0 : ℝ) ≤ 60 := by norm_num
    exact mul_le_mul_of_nonneg_right (mul_le_mul_of_nonneg_right this hdt) h60

/-- Witness for C5 at masses 0 ≤ 1, delta_time 1, angle 0. -/
theorem c5_speed_monotonicity_witness :
    bot_speed 0 = max 0.5 (2.5 / (1 + 0 / (Real.pi * 15 * 15 * 20)))
    ∧ displacement_magnitude 0 1 0 = bot_speed 0 * 1 * 60
    ∧ displacement_magnitude 1 1 0 ≤ displacement_magnitude 0 1 0
    ∧ 0.5 * 1 * 60 ≤ displacement_magnitude 0 1 0 :=
  c5_speed_monotonicity 0 0 1 1 0 (by norm_num) (by norm_num) (by norm_num)

/-- A boolean non-emptiness test read back as a proposition. -/
lemma notEmpty_true_iff (l : List PyBotCell) : (!l.isEmpty) = true ↔ l ≠ [] := by
  cases l <;> simp

/-- update_position never adds or removes cells, so it empties the cell list
exactly when it already was empty. -/
lemma update_position_cells_nil_iff (b : PyBot) (dt : ℝ) (env : UpdateEnv) :
    (b.update_position dt env).cells = [] ↔ b.cells = [] := by
  by_cases hc : b.cells = []
  · simp [PyBot.update_position, hc]
  · simp [PyBot.update_position, hc]

/-- In a registry with pairwise-distinct keys, entries agreeing on the key are
equal. -/
lemma mem_eq_of_nodup_keys (l : Registry) (hl : (l.map Prod.fst).Nodup)
    (p q : String × PyBot) (hp : p ∈ l) (hq : q ∈ l) (h : p.1 = q.1) : p = q := by
  induction l with
  | nil => cases hp
  | cons hd tl ih =>
    rw [List.map_cons, List.nodup_cons] at hl
    rcases List.mem_cons.mp hp with rfl | hp'
    · rcases List.mem_cons.mp hq with rfl | hq'
      · rfl
      · exact absurd (h ▸ List.mem_map_of_mem Prod.fst hq') hl.1
    · rcases List.mem_cons.mp hq with rfl | hq'
      · exact absurd (h ▸ List.mem_map_of_mem Prod.fst hp') hl.1
      · exact ih hl.2 hp' hq'

/-- First component of the get_bots_data result, unfolded. -/
lemma get_bots_data_fst (reg : Registry) (t : ℝ) (envf : String → UpdateEnv) :
    (get_bots_data reg t envf).1
      = (reg.map (advance_bot t envf)).filter (fun p => !p.2.cells.isEmpty) := rfl

/-- C1: get_bots_data updates every registered bot with delta_time equal to
the current time minus its last_update_time (this is what advance_bot does), a
bot is kept in the registry and returned exactly when its update leaves it
with cells, every evicted id is gone from the registry, every returned bot has
cells, and the returned list is exactly the kept registry values. -/
theorem c1_list_and_advance (reg : Registry) (t : ℝ) (envf : String → UpdateEnv)
    (hnodup : (reg.map Prod.fst).Nodup) :
    (∀ p ∈ reg,
      ((advance_bot t envf p).2.cells ≠ [] →
        advance_bot t envf p ∈ (get_bots_data reg t envf).1
        ∧ (advance_bot t envf p).2 ∈ (get_bots_data reg t envf).2)
      ∧ ((advance_bot t envf p).2.cells = [] →
          ∀ q ∈ (get_bots_data reg t envf).1, q.1 ≠ p.1))
    ∧ (∀ q ∈ (get_bots_data reg t envf).1,
        ∃ p ∈ reg, q = advance_bot t envf p ∧ q.2.cells ≠ [])
    ∧ (∀ b ∈ (get_bots_data reg t envf).2, b.cells ≠ [])
    ∧ (get_bots_data reg t envf).2 = ((get_bots_data reg t envf).1).map Prod.snd := by
  refine ⟨?_, ?_, ?_, rfl⟩
  · intro p hp
    constructor
    · intro hcells
      have hmem : advance_bot t envf p ∈ reg.map (advance_bot t envf) :=
        List.mem_map_of_mem _ hp
      have hkept : advance_bot t envf p ∈ (get_bots_data reg t envf).1 := by
        rw [get_bots_data_fst]
        exact List.mem_filter.mpr ⟨hmem, (notEmpty_true_iff _).mpr hcells⟩
      exact ⟨hkept, List.mem_map_of_mem Prod.snd hkept⟩
    · intro hcells q hq heq
      rw [get_bots_data_fst] at hq
      obtain ⟨hqm, hqpred⟩ := List.mem_filter.mp hq
      obtain ⟨p', hp', rfl⟩ := List.mem_map.mp hqm
      have hfst : p'.1 = p.1 := heq
      have : p' = p := mem_eq_of_nodup_keys reg hnodup p' p hp' hp hfst
      subst this
      exact (notEmpty_true_iff _).mp hqpred hcells
  · intro q hq
    rw [get_bots_data_fst] at hq
    obtain ⟨hqm, hqpred⟩ := List.mem_filter.mp hq
    obtain ⟨p, hp, rfl⟩ := List.mem_map.mp hqm
    exact ⟨p, hp, rfl, (notEmpty_true_iff _).mp hqpred⟩
  · intro b hb
    obtain ⟨q, hq, rfl⟩ := List.mem_map.mp hb
    exact (notEmpty_true_iff _).mp (List.mem_filter.mp hq).2

/-- Witness for C1: a concrete one-bot registry whose bot survives its update
and is both kept and returned. -/
theorem c1_list_and_advance_witness :
    advance_bot 5 wEnvf ("a", wBot) ∈ (get_bots_data [("a", wBot)] 5 wEnvf).1
    ∧ (advance_bot 5 wEnvf ("a", wBot)).2 ∈ (get_bots_data [("a", wBot)] 5 wEnvf).2 :=
  ((c1_list_and_advance [("a", wBot)] 5 wEnvf (by simp)).1 ("a", wBot)
    (by simp)).1 (by
      show (wBot.update_position (5 - wBot.last_update_time) (wEnvf "a")).cells ≠ []
      rw [Ne, update_position_cells_nil_iff]
      simp [wBot])

/-- Inserting a key absent from the registry appends the binding. -/
lemma dict_insert_fresh (reg : Registry) (key : String) (b : PyBot)
    (h : ∀ p ∈ reg, p.1 ≠ key) : dict_insert reg key b = reg ++ [(key, b)] := by
  have hc : ¬(reg.any (fun p => p.1 = key) = true) := by
    simp only [List.any_eq_true, decide_eq_true_eq, not_exists]
    intro p
    rintro ⟨hp, he⟩
    exact h p hp he
  rw [dict_insert, if_neg hc]

/-- Erasing a key no entry carries does nothing. -/
lemma dict_erase_of_forall_ne (reg : Registry) (key : String)
    (h : ∀ p ∈ reg, p.1 ≠ key) : dict_erase reg key = reg :=
  List.filter_eq_self.mpr (by intro p hp; simpa using h p hp)

/-- With pairwise-distinct keys, erasing a present key shortens the registry
by exactly one entry. -/
lemma dict_erase_length (reg : Registry) (key : String) :
    (reg.map Prod.fst).Nodup → reg.any (fun p => p.1 = key) = true →
    (dict_erase reg key).length + 1 = reg.length := by
  induction reg with
  | nil => intro _ h; simp at h
  | cons hd tl ih =>
    intro hnd hany
    rw [List.map_cons, List.nodup_cons] at hnd
    by_cases hh : hd.1 = key
    · have htl : dict_erase tl key = tl := dict_erase_of_forall_ne tl key (by
        intro p hp hpk
        exact hnd.1 (hh ▸ hpk ▸ List.mem_map_of_mem Prod.fst hp))
      have hstep : dict_erase (hd :: tl) key = dict_erase tl key := by
        rw [dict_erase, dict_erase, List.filter_cons]
        simp [hh]
      rw [hstep, htl, List.length_cons]
    · have hany' : tl.any (fun p => p.1 = key) = true := by
        simpa [List.any_cons, hh] using hany
      have hstep : dict_erase (hd :: tl) key = hd :: dict_erase tl key := by
        rw [dict_erase, dict_erase, List.filter_cons]
        simp [hh]
      rw [hstep, List.length_cons, List.length_cons]
      have := ih hnd.2 hany'
      omega

/-- The constructed bot's identifier is the generated one. -/
lemma mkPyBot_id (env : BotEnv) : (mkPyBot env).id = env.bot_id := rfl

/-- The constructed bot has exactly one cell, of mass BOT_INITIAL_MASS. -/
lemma mkPyBot_cells (env : BotEnv) :
    (mkPyBot env).cells
      = [PyBotCell.make env.initial_x env.initial_y BOT_INITIAL_MASS env.cell_id] := rfl

/-- The configured initial mass is pi times 15 squared. -/
lemma BOT_INITIAL_MASS_eq : BOT_INITIAL_MASS = Real.pi * 15 ^ 2 := by
  rw [BOT_INITIAL_MASS]; ring

/-- Folding fresh, pairwise-distinct bot insertions over an accumulator
appends the corresponding bindings in order. -/
lemma foldl_insert_fresh (envs : ℕ → BotEnv) :
    ∀ (l : List ℕ) (acc : Registry),
      (∀ i ∈ l, ∀ p ∈ acc, p.1 ≠ (envs i).bot_id) →
      l.Pairwise (fun i j => (envs i).bot_id ≠ (envs j).bot_id) →
      l.foldl (fun acc2 i => dict_insert acc2 (mkPyBot (envs i)).id (mkPyBot (envs i))) acc
        = acc ++ l.map (fun i => ((envs i).bot_id, mkPyBot (envs i))) := by
  intro l
  induction l with
  | nil => intro acc _ _; simp
  | cons i tl ih =>
    intro acc hfresh hpw
    rw [List.pairwise_cons] at hpw
    rw [List.foldl_cons, mkPyBot_id,
      dict_insert_fresh acc _ _ (fun p hp => hfresh i (List.mem_cons_self i tl) p hp),
      ih (acc ++ [((envs i).bot_id, mkPyBot (envs i))]) ?_ hpw.2]
    · simp
    · intro j hj p hp
      rcases List.mem_append.mp hp with h1 | h2
      · exact hfresh j (List.mem_cons_of_mem _ hj) p h1
      · have : p = ((envs i).bot_id, mkPyBot (envs i)) := by simpa using h2
        subst this
        exact hpw.1 j hj

/-- With pairwise-distinct generated ids, the registry produced by
reset_all_bots is exactly the ordered list of the freshly built bots. -/
lemma reset_registry_eq (reg0 : Registry) (n : ℕ) (envs : ℕ → BotEnv)
    (hinj : ∀ i j, i < n → j < n → (envs i).bot_id = (envs j).bot_id → i = j) :
    (reset_all_bots reg0 (n : ℤ) envs).1
      = (List.range n).map (fun i => ((envs i).bot_id, mkPyBot (envs i))) := by
  have hpw : (List.range n).Pairwise (fun i j => (envs i).bot_id ≠ (envs j).bot_id) := by
    have h := List.pairwise_lt_range n
    refine h.imp_of_mem ?_
    intro a b ha hb hab heq
    exact absurd (hinj a b (List.mem_range.mp ha) (List.mem_range.mp hb) heq)
      (Nat.ne_of_lt hab)
  have hfold := foldl_insert_fresh envs (List.range n) []
    (by intro i _ p hp; cases hp) hpw
  show (List.range (Int.toNat n)).foldl
      (fun acc2 i => dict_insert acc2 (mkPyBot (envs i)).id (mkPyBot (envs i))) []
      = _
  rw [Int.toNat_natCast]
  simpa using hfold

/-- Witness for C4 at a concrete bot whose single cell has radius 1. -/
theorem c4_bounds_clamp_witness :
    (∀ c ∈ (wBot.update_position 1 wUEnv).cells,
      c.radius ≤ c.x ∧ c.x ≤ WORLD_WIDTH - c.radius
      ∧ c.radius ≤ c.y ∧ c.y ≤ WORLD_HEIGHT - c.radius)
    ∧ ∀ (benv : BotEnv), ∀ c ∈ (mkPyBot benv).cells,
        2 * c.radius ≤ WORLD_WIDTH ∧ 2 * c.radius ≤ WORLD_HEIGHT :=
  c4_bounds_clamp wBot 1 wUEnv (by
    intro c hcmem
    simp only [wBot, wCell, List.mem_singleton] at hcmem
    subst hcmem
    norm_num [WORLD_WIDTH, WORLD_HEIGHT])

/-- C2: with pairwise-distinct generated ids, reset(count=N) clears the
registry and leaves exactly the N fresh bots, each with a single cell of mass
pi * 15 ^ 2; the response lists them all; reset(count=0) empties everything. -/
theorem c2_reset_semantics (reg0 : Registry) (n : ℕ) (envs : ℕ → BotEnv)
    (hinj : ∀ i j, i < n → j < n → (envs i).bot_id = (envs j).bot_id → i = j) :
    (reset_all_bots reg0 (n : ℤ) envs).1.length = n
    ∧ (∀ p ∈ (reset_all_bots reg0 (n : ℤ) envs).1,
        ∃ i < n, p = ((envs i).bot_id, mkPyBot (envs i)))
    ∧ (∀ p ∈ (reset_all_bots reg0 (n : ℤ) envs).1,
        ∃ c, p.2.cells = [c] ∧ c.mass = Real.pi * 15 ^ 2)
    ∧ (reset_all_bots reg0 (n : ℤ) envs).2
        = ((reset_all_bots reg0 (n : ℤ) envs).1).map Prod.snd
    ∧ (reset_all_bots reg0 0 envs).1 = []
    ∧ (reset_all_bots reg0 0 envs).2 = [] := by
  have hreg := reset_registry_eq reg0 n envs hinj
  have hcellmem : ∀ p ∈ (reset_all_bots reg0 (n : ℤ) envs).1,
      ∃ c, p.2.cells = [c] ∧ c.mass = Real.pi * 15 ^ 2 := by
    intro p hp
    rw [hreg] at hp
    obtain ⟨i, _, rfl⟩ := List.mem_map.mp hp
    refine ⟨PyBotCell.make (envs i).initial_x (envs i).initial_y BOT_INITIAL_MASS (envs i).cell_id,
      mkPyBot_cells (envs i), ?_⟩
    show BOT_INITIAL_MASS = Real.pi * 15 ^ 2
    exact BOT_INITIAL_MASS_eq
  refine ⟨?_, ?_, hcellmem, ?_, rfl, rfl⟩
  · rw [hreg]; simp
  · intro p hp
    rw [hreg] at hp
    obtain ⟨i, hi, rfl⟩ := List.mem_map.mp hp
    exact ⟨i, List.mem_range.mp hi, rfl⟩
  · show ((reset_all_bots reg0 (n : ℤ) envs).1.filter (fun p => !p.2.cells.isEmpty)).map Prod.snd = _
    rw [List.filter_eq_self.mpr]
    intro p hp
    obtain ⟨c, hc, _⟩ := hcellmem p hp
    rw [notEmpty_true_iff, hc]
    simp

/-- Witness for C2 at count 1 with a concrete construction oracle. -/
theorem c2_reset_semantics_witness :
    (reset_all_bots [] ((1 : ℕ) : ℤ) (fun _ => wBotEnv)).1.length = 1
    ∧ (∀ p ∈ (reset_all_bots [] ((1 : ℕ) : ℤ) (fun _ => wBotEnv)).1,
        ∃ i < 1, p = (((fun _ => wBotEnv) i : BotEnv).bot_id, mkPyBot ((fun _ => wBotEnv) i)))
    ∧ (∀ p ∈ (reset_all_bots [] ((1 : ℕ) : ℤ) (fun _ => wBotEnv)).1,
        ∃ c, p.2.cells = [c] ∧ c.mass = Real.pi * 15 ^ 2)
    ∧ (reset_all_bots [] ((1 : ℕ) : ℤ) (fun _ => wBotEnv)).2
        = ((reset_all_bots [] ((1 : ℕ) : ℤ) (fun _ => wBotEnv)).1).map Prod.snd
    ∧ (reset_all_bots [] 0 (fun _ => wBotEnv)).1 = []
    ∧ (reset_all_bots [] 0 (fun _ => wBotEnv)).2 = [] :=
  c2_reset_semantics [] 1 (fun _ => wBotEnv) (by intro i j hi hj _; omega)

/-- C3: eliminating a registered id removes it, registers exactly one
replacement (assuming the freshly generated id is not already taken) and
reports found, keeping the total count; eliminating an unknown id reports
not-found and leaves the registry untouched. -/
theorem c3_eliminate_semantics (reg : Registry) (the_id : String) (env : BotEnv)
    (hnodup : (reg.map Prod.fst).Nodup)
    (hfresh : ∀ p ∈ dict_erase reg the_id, p.1 ≠ env.bot_id) :
    (reg.any (fun p => p.1 = the_id) = true →
      (bot_was_eaten reg the_id env).2 = true
      ∧ (bot_was_eaten reg the_id env).1
          = dict_erase reg the_id ++ [(env.bot_id, mkPyBot env)]
      ∧ (bot_was_eaten reg the_id env).1.length = reg.length)
    ∧ (reg.any (fun p => p.1 = the_id) = false →
        bot_was_eaten reg the_id env = (reg, false)) := by
  constructor
  · intro hin
    have happ : (bot_was_eaten reg the_id env).1
        = dict_erase reg the_id ++ [(env.bot_id, mkPyBot env)] := by
      rw [bot_was_eaten, if_pos hin]
      show dict_insert (dict_erase reg the_id) (mkPyBot env).id (mkPyBot env) = _
      rw [mkPyBot_id]
      exact dict_insert_fresh _ _ _ hfresh
    refine ⟨by rw [bot_was_eaten, if_pos hin], happ, ?_⟩
    rw [happ, List.length_append]
    have := dict_erase_length reg the_id hnodup hin
    simp only [List.length_singleton]
    omega
  · intro hout
    rw [bot_was_eaten, if_neg (by simp [hout])]

/-- Witness for C3: eliminating the only bot of a one-bot registry with a
fresh replacement id. -/
theorem c3_eliminate_semantics_witness :
    (bot_was_eaten [("a", wBot)] "a" wBotEnv).2 = true
    ∧ (bot_was_eaten [("a", wBot)] "a" wBotEnv).1
        = dict_erase [("a", wBot)] "a" ++ [(wBotEnv.bot_id, mkPyBot wBotEnv)]
    ∧ (bot_was_eaten [("a", wBot)] "a" wBotEnv).1.length
        = ([("a", wBot)] : Registry).length :=
  (c3_eliminate_semantics [("a", wBot)] "a" wBotEnv (by simp)
    (by intro p hp; simp [dict_erase] at hp)).1 (by simp)

/-- C10: a negative count makes reset behave exactly like count 0: clear the
registry, build nothing, return the empty list. -/
theorem c10_negative_count (reg0 : Registry) (count : ℤ) (envs : ℕ → BotEnv)
    (h : count < 0) :
    reset_all_bots reg0 count envs = reset_all_bots reg0 0 envs
    ∧ (reset_all_bots reg0 count envs).1 = []
    ∧ (reset_all_bots reg0 count envs).2 = [] := by
  have htonat : count.toNat = 0 := Int.toNat_of_nonpos h.le
  refine ⟨?_, ?_, ?_⟩ <;> simp [reset_all_bots, htonat]

/-- Witness for C10 at count -1. -/
theorem c10_negative_count_witness :
    reset_all_bots [] (-1) (fun _ => wBotEnv) = reset_all_bots [] 0 (fun _ => wBotEnv)
    ∧ (reset_all_bots [] (-1) (fun _ => wBotEnv)).1 = []
    ∧ (reset_all_bots [] (-1) (fun _ => wBotEnv)).2 = [] :=
  c10_negative_count [] (-1) (fun _ => wBotEnv) (by norm_num)

end

